import Mathlib

/-!
Verification development for the Orbu multi-tenant ERP gateway core:
the connection pool, endpoint executor, schema introspector and log
retention service are shallowly embedded from the Python source
(`backend/services/connection_pool.py`, `endpoint_executor.py`,
`schema_service.py`, `log_cleanup.py`) and the specified properties are
settled against the embedding.
-/

set_option autoImplicit false

namespace Orbu

/-! ## Name translation (`EndpointExecutor._pascal_to_snake`) -/

/-- Embedding of Python `str.isupper` for a single character, restricted to
the ASCII range the gateway's service names use (`char.isupper()` in
`_pascal_to_snake`). -/
def pyIsUpper (c : Char) : Bool :=
  'A' ≤ c && c ≤ 'Z'

/-- Embedding of Python `str.lower` for a single character (ASCII range). -/
def pyToLower (c : Char) : Char :=
  if pyIsUpper c then Char.ofNat (c.toNat + 32) else c

/-- The loop body of `EndpointExecutor._pascal_to_snake`: for each character,
an underscore is inserted when the character is upper-case and not at index
zero, then the lowered character is appended. -/
def pascalToSnakeGo : List Char → Nat → List Char
  | [], _ => []
  | c :: cs, i =>
    (if pyIsUpper c && i != 0 then ['_'] else []) ++ pyToLower c :: pascalToSnakeGo cs (i + 1)

/-- Embedding of `EndpointExecutor._pascal_to_snake` from
`backend/services/endpoint_executor.py`. -/
def pascalToSnake (s : String) : String :=
  ⟨pascalToSnakeGo s.data 0⟩

/-- A string is entirely lower-case when none of its characters is
upper-case. -/
def allLowerCase (s : String) : Prop :=
  ∀ c ∈ s.data, pyIsUpper c = false

instance (s : String) : Decidable (allLowerCase s) := by
  unfold allLowerCase; infer_instance

theorem pyToLower_of_not_upper {c : Char} (h : pyIsUpper c = false) :
    pyToLower c = c := by
  simp [pyToLower, h]

theorem pascalToSnakeGo_fixpoint (cs : List Char)
    (h : ∀ c ∈ cs, pyIsUpper c = false) :
    ∀ i : Nat, pascalToSnakeGo cs i = cs := by
  induction cs with
  | nil => intro i; rfl
  | cons c cs ih =>
    intro i
    have hc : pyIsUpper c = false := h c (List.mem_cons_self c cs)
    have hcs : ∀ x ∈ cs, pyIsUpper x = false := fun x hx => h x (List.mem_cons_of_mem c hx)
    simp [pascalToSnakeGo, hc, pyToLower_of_not_upper hc, ih hcs]

theorem pascalToSnake_id_of_lower (s : String) (h : allLowerCase s) :
    pascalToSnake s = s := by
  unfold pascalToSnake
  rw [pascalToSnakeGo_fixpoint s.data h 0]

/-- C4 (counterexample): the claim maps `"GL"` to `"gl"`, but the source
inserts an underscore before every internal capital, so `_pascal_to_snake`
maps `"GL"` to `"g_l"`, not `"gl"`. -/
theorem c4_counterexample :
    pascalToSnake "GL" = "g_l" ∧ pascalToSnake "GL" ≠ "gl" := by
  constructor
  · decide
  · decide

/-- C4 (amended): the service-name translation is a pure function mapping
`"SalesOrder"` to `"sales_order"`, `"GL"` to `"g_l"`, and `"InventoryItem"`
to `"inventory_item"`, and for every input string that is already entirely
lower-case, applying the translation twice equals applying it once. -/
theorem c4_name_translation :
    pascalToSnake "SalesOrder" = "sales_order" ∧
    pascalToSnake "GL" = "g_l" ∧
    pascalToSnake "InventoryItem" = "inventory_item" ∧
    ∀ s : String, allLowerCase s →
      pascalToSnake (pascalToSnake s) = pascalToSnake s := by
  refine ⟨by decide, by decide, by decide, fun s h => ?_⟩
  rw [pascalToSnake_id_of_lower s h, pascalToSnake_id_of_lower s h]

/-- C4 witness: the idempotence clause applied at the concrete lower-case
input `"gl"`. -/
theorem c4_name_translation_witness :
    pascalToSnake (pascalToSnake "gl") = pascalToSnake "gl" :=
  c4_name_translation.2.2.2 "gl" (by decide)

/-! ## String helpers shared by the schema-service embedding

Python string operations (`in`, `lower`, `strip`, `split(sep, 1)`) translated
over `List Char`. -/

/-- `listStartsWith hay needle` holds when `needle` is an initial segment of
`hay`. -/
def listStartsWith : List Char → List Char → Bool
  | _, [] => true
  | [], _ :: _ => false
  | a :: as, b :: bs => a == b && listStartsWith as bs

/-- Auxiliary scan for Python's substring test `needle in hay`. -/
def strContainsAux (needle : List Char) : List Char → Bool
  | [] => needle.isEmpty
  | c :: cs => listStartsWith (c :: cs) needle || strContainsAux needle cs

/-- Embedding of Python's `needle in hay` substring test. -/
def strContains (hay needle : String) : Bool :=
  strContainsAux needle.data hay.data

/-- Embedding of Python `str.lower` (ASCII range). -/
def pyLower (s : String) : String :=
  ⟨s.data.map pyToLower⟩

/-- Whitespace trim on both ends of a character list (Python `str.strip`). -/
def trimChars (cs : List Char) : List Char :=
  ((cs.dropWhile Char.isWhitespace).reverse.dropWhile Char.isWhitespace).reverse

/-- Embedding of Python `str.strip`. -/
def pyStrip (s : String) : String :=
  ⟨trimChars s.data⟩

/-- Embedding of Python `s.split(sep)` for a single-character separator. -/
def splitChar (sep : Char) : List Char → List String
  | [] => [""]
  | c :: cs =>
    let rest := splitChar sep cs
    if c == sep then "" :: rest
    else
      match rest with
      | [] => [String.mk [c]]
      | r :: rs => String.mk (c :: r.data) :: rs

/-- Embedding of Python `s.split(sep, 1)`: split at the first occurrence of
`sep`, returning `none` when `sep` does not occur. -/
def splitOnceGo (sep : Char) : List Char → Option (List Char × List Char)
  | [] => none
  | c :: cs =>
    if c == sep then some ([], cs)
    else (splitOnceGo sep cs).map (fun p => (c :: p.1, p.2))

/-- `splitOnce s sep` mirrors `'sep' in s` plus `s.split(sep, 1)`. -/
def splitOnce (s : String) (sep : Char) : Option (String × String) :=
  (splitOnceGo sep s.data).map (fun p => (⟨p.1⟩, ⟨p.2⟩))

/-! ## Schema introspection (`SchemaService`) -/

/-- The `{'type': ..., 'python_type': ...}` dictionaries produced per
parameter and for return types by `SchemaService`. -/
structure TypeInfo where
  type : String
  pythonType : String
deriving DecidableEq, Repr

/-- One entry of the `parameters` list built by
`SchemaService._parse_signature_string`. -/
structure ParamInfo where
  name : String
  required : Bool
  default : Option String
  type : TypeInfo
deriving DecidableEq, Repr

/-- The dictionary returned by `SchemaService.get_method_signature` /
`_parse_signature_string`. -/
structure MethodSignature where
  methodName : String
  parameters : List ParamInfo
  hasReturnType : Bool
  returnType : Option TypeInfo
deriving DecidableEq, Repr

/-- The union-folding step of `SchemaService._python_type_to_json_type`:
given the `|`-separated alternatives (already stripped), drop the `None` /
`NoneType` alternatives and keep the first survivor (`none` when no
alternative survives, in which case the source returns `'null'`). -/
def foldUnionTypes (types : List String) : Option String :=
  let nonNone := types.filter (fun t => !(pyLower t == "none" || pyLower t == "nonetype"))
  match nonNone with
  | [] => none
  | t :: _ => some t

/-- The substring-matching tail of `SchemaService._python_type_to_json_type`
(after union folding). -/
def baseJsonType (pythonType : String) : String :=
  let l := pyLower pythonType
  if strContains l "str" || strContains l "string" then "string"
  else if strContains l "int" || strContains l "integer" then "integer"
  else if strContains l "float" || strContains l "number" || strContains l "decimal" then "number"
  else if strContains l "bool" || strContains l "boolean" then "boolean"
  else if strContains l "list" || strContains l "array" then "array"
  else if strContains l "dict" || strContains l "object" then "object"
  else if strContains l "none" || strContains l "null" then "null"
  else "object"

/-- Embedding of `SchemaService._python_type_to_json_type`. -/
def pythonTypeToJson (t : String) : String :=
  if strContains t "|" then
    match foldUnionTypes ((splitChar '|' t.data).map pyStrip) with
    | none => "null"
    | some t' => baseJsonType t'
  else baseJsonType t

/-- The bracket-depth-aware comma split of
`SchemaService._parse_signature_string` (depth is a signed integer, exactly
as Python's counter can go negative on unbalanced input). -/
def splitParamsGo : List Char → Int → List Char → List String → List String
  | [], _, current, acc =>
    if current.isEmpty then acc else acc ++ [pyStrip (String.mk current)]
  | c :: cs, depth, current, acc =>
    if c == '[' || c == '{' || c == '(' then
      splitParamsGo cs (depth + 1) (current ++ [c]) acc
    else if c == ']' || c == '}' || c == ')' then
      splitParamsGo cs (depth - 1) (current ++ [c]) acc
    else if c == ',' && depth == 0 then
      splitParamsGo cs depth [] (acc ++ [pyStrip (String.mk current)])
    else
      splitParamsGo cs depth (current ++ [c]) acc

/-- Parsing of a single parameter fragment in
`SchemaService._parse_signature_string`: detect a default via `=`, split
`name: type` via `:` (falling back to type `str`), and map the Python type
to its JSON type. Empty fragments are skipped (`none`). -/
def parseParam (fragment : String) : Option ParamInfo :=
  let fragment := pyStrip fragment
  if fragment.data.isEmpty then none
  else
    let (beforeEq, defaultVal) :=
      match splitOnce fragment '=' with
      | some (l, r) => (pyStrip l, some (pyStrip r))
      | none => (fragment, none)
    let (name, pyType) :=
      match splitOnce beforeEq ':' with
      | some (l, r) => (pyStrip l, pyStrip r)
      | none => (beforeEq, "str")
    some { name := name, required := defaultVal.isNone, default := defaultVal,
           type := { type := pythonTypeToJson pyType, pythonType := pyType } }

/-- Embedding of `re.search(r'\((.*?)\)', s)` as used on signature strings:
the leftmost `(` followed by the shortest run of characters up to the next
`)`. -/
def firstParenGroup (s : String) : Option String :=
  match s.data.dropWhile (fun c => !(c == '(')) with
  | [] => none
  | _ :: rest =>
    if rest.any (fun c => c == ')') then
      some (String.mk (rest.takeWhile (fun c => !(c == ')'))))
    else none

/-- Scan for the first `->` in a signature string, returning what follows. -/
def afterArrow : List Char → Option (List Char)
  | [] => none
  | '-' :: '>' :: rest => some rest
  | _ :: cs => afterArrow cs

/-- Embedding of `re.search(r'->\s*(.+?)$', s)` followed by the `.strip()`
the source applies to the captured group: the (stripped) text after the
first `->`, provided at least one character follows it. -/
def returnTypeGroup (s : String) : Option String :=
  match afterArrow s.data with
  | none => none
  | some rest => if rest.isEmpty then none else some (pyStrip (String.mk rest))

/-- Embedding of `SchemaService._parse_signature_string`. -/
def parseSignatureString (methodName sigStr : String) : MethodSignature :=
  let parameters :=
    match firstParenGroup sigStr with
    | none => []
    | some g =>
      let paramsStr := pyStrip g
      if paramsStr.data.isEmpty then []
      else (splitParamsGo paramsStr.data 0 [] []).filterMap parseParam
  let returnType := (returnTypeGroup sigStr).map
    (fun t => ({ type := pythonTypeToJson t, pythonType := t } : TypeInfo))
  { methodName := methodName, parameters := parameters,
    hasReturnType := returnType.isSome, returnType := returnType }

/-! ## Schema generation (`SchemaService.generate_*`) -/

/-- Python dict assignment `d[k] = v` on an insertion-ordered association
list: replace in place when the key exists, append otherwise. -/
def pyDictInsert {α : Type} (k : String) (v : α) : List (String × α) → List (String × α)
  | [] => [(k, v)]
  | (k', v') :: rest =>
    if k' == k then (k', v) :: rest else (k', v') :: pyDictInsert k v rest

/-- Python dict lookup `d.get(k)` on an association list. -/
def pyDictGet {α : Type} (k : String) : List (String × α) → Option α
  | [] => none
  | (k', v) :: rest => if k' == k then some v else pyDictGet k rest

/-- One property entry of the request schema produced by
`SchemaService.generate_request_schema`. -/
structure PropSchema where
  type : String
  description : Option String
  default : Option String
deriving DecidableEq, Repr

/-- The request schema produced by `SchemaService.generate_request_schema`
(the enclosing `{'type': 'object', ...}` wrapper is constant; the source
omits the `required` key when the list is empty, modelled here by the list
itself being empty). -/
structure RequestSchema where
  properties : List (String × PropSchema)
  required : List String
deriving DecidableEq, Repr

/-- The property dictionary `generate_request_schema` builds for one
parameter: the JSON type, a `Type: ...` description when the Python type
string is non-empty, and the default when the parameter is optional and the
default is truthy. -/
def requestPropSchema (p : ParamInfo) : PropSchema :=
  { type := p.type.type,
    description :=
      if p.type.pythonType ≠ "" then some ("Type: " ++ p.type.pythonType) else none,
    default :=
      match p.default with
      | some d => if p.required = false ∧ d ≠ "" then some d else none
      | none => none }

/-- One iteration of the parameter loop in
`SchemaService.generate_request_schema`: insert the property schema and
append the name to `required` when the parameter has no default. -/
def requestSchemaStep (acc : List (String × PropSchema) × List String) (p : ParamInfo) :
    List (String × PropSchema) × List String :=
  (pyDictInsert p.name (requestPropSchema p) acc.1,
   if p.required then acc.2 ++ [p.name] else acc.2)

/-- Embedding of `SchemaService.generate_request_schema`. -/
def generateRequestSchema (sig : MethodSignature) : RequestSchema :=
  let out := sig.parameters.foldl requestSchemaStep ([], [])
  { properties := out.1, required := out.2 }

/-- The `data` member of the response schema produced by
`SchemaService.generate_response_schema` (its `items` / status `properties`
members are constants of the branch that sets them). -/
structure DataSchema where
  type : String
  description : Option String
deriving DecidableEq, Repr

/-- The response schema envelope: the `success` / `meta` members and the
`required: [success, data]` list are constants in the source, so the
varying `data` member is the whole content. -/
structure ResponseSchema where
  data : DataSchema
deriving DecidableEq, Repr

/-- `python_type.split('[')[1].split(']')[0]` — the element type extracted
from a `list[T]` return annotation. -/
def innerListType (pythonType : String) : String :=
  if strContains pythonType "[" && strContains pythonType "]" then
    String.mk (((pythonType.data.dropWhile (fun c => !(c == '['))).drop 1).takeWhile
      (fun c => !(c == '[')) |>.takeWhile (fun c => !(c == ']')))
  else pythonType

/-- Embedding of `SchemaService.generate_response_schema`. -/
def generateResponseSchema (sig : MethodSignature) : ResponseSchema :=
  let methodName := pyLower sig.methodName
  let dataSchema : DataSchema :=
    if sig.hasReturnType then
      let pt := (sig.returnType.map TypeInfo.pythonType).getD ""
      let jt := (sig.returnType.map TypeInfo.type).getD "object"
      if strContains (pyLower pt) "list" || jt == "array" then
        { type := "array", description := some ("Array of " ++ innerListType pt ++ " objects") }
      else if jt == "boolean" then
        { type := "object", description := some ("Operation status - Type: " ++ pt) }
      else if jt == "string" then
        { type := "string", description := some ("Type: " ++ pt) }
      else if jt == "integer" || jt == "number" then
        { type := jt, description := some ("Type: " ++ pt) }
      else if strContains (pyLower pt) "dict" || jt == "object" then
        { type := "object", description := some ("Single object - Type: " ++ pt) }
      else
        { type := jt, description := some ("Type: " ++ pt) }
    else
      if ["list", "query", "search", "get_all"].any (fun k => strContains methodName k) then
        { type := "array", description := some "Array of objects" }
      else if ["delete", "remove", "update", "put"].any (fun k => strContains methodName k) then
        { type := "object", description := some "Operation status" }
      else
        { type := "object", description := none }
  { data := dataSchema }

/-- JSON values as produced for example requests. -/
inductive JsonValue where
  | jnull : JsonValue
  | jbool : Bool → JsonValue
  | jstr : String → JsonValue
  | jint : Int → JsonValue
  | jnum : ℚ → JsonValue
  | jarr : List JsonValue → JsonValue
  | jobj : List (String × JsonValue) → JsonValue
deriving Repr

open JsonValue

/-- The per-parameter example value of
`SchemaService.generate_example_request`: a type-directed placeholder,
overridden by the declared default when the parameter is optional and the
default is a non-empty string other than `'None'`. -/
def exampleValue (p : ParamInfo) : JsonValue :=
  let base : JsonValue :=
    if p.type.type == "string" then jstr ("example_" ++ p.name)
    else if p.type.type == "integer" then jint 0
    else if p.type.type == "number" then jnum 0
    else if p.type.type == "boolean" then jbool true
    else if p.type.type == "array" then jarr []
    else if p.type.type == "object" then jobj []
    else jnull
  match p.default with
  | some d => if p.required = false ∧ d ≠ "" ∧ d ≠ "None" then jstr d else base
  | none => base

/-- Embedding of `SchemaService.generate_example_request`. -/
def generateExampleRequest (sig : MethodSignature) : List (String × JsonValue) :=
  sig.parameters.foldl (fun acc p => pyDictInsert p.name (exampleValue p) acc) []

/-! ## Lemmas about the request-schema fold and the parameter parser -/

theorem requestSchema_required_fold (ps : List ParamInfo) :
    ∀ acc : List (String × PropSchema) × List String,
      (ps.foldl requestSchemaStep acc).2 =
        acc.2 ++ (ps.filter (fun p => p.required)).map ParamInfo.name := by
  induction ps with
  | nil => intro acc; simp
  | cons p ps ih =>
    intro acc
    rw [List.foldl_cons, ih]
    by_cases hp : p.required
    · simp [requestSchemaStep, hp]
    · simp [requestSchemaStep, hp]

theorem mem_generateRequestSchema_required (sig : MethodSignature) (p : ParamInfo)
    (hp : p ∈ sig.parameters) (hreq : p.required = true) :
    p.name ∈ (generateRequestSchema sig).required := by
  show p.name ∈ (sig.parameters.foldl requestSchemaStep ([], [])).2
  rw [requestSchema_required_fold]
  simp only [List.nil_append, List.mem_map]
  exact ⟨p, List.mem_filter.mpr ⟨hp, hreq⟩, rfl⟩

theorem parseParam_required_eq (fragment : String) (p : ParamInfo)
    (h : parseParam fragment = some p) : p.required = p.default.isNone := by
  unfold parseParam at h
  dsimp only at h
  split at h
  · exact absurd h (by simp)
  · rcases h1 : splitOnce (pyStrip fragment) '=' with _ | ⟨l, r⟩ <;>
      rw [h1] at h <;> dsimp only at h
    · rcases h2 : splitOnce (pyStrip fragment) ':' with _ | ⟨l', r'⟩ <;>
        rw [h2] at h <;> dsimp only at h <;> (cases h; rfl)
    · rcases h2 : splitOnce (pyStrip l) ':' with _ | ⟨l', r'⟩ <;>
        rw [h2] at h <;> dsimp only at h <;> (cases h; rfl)

theorem parseSignatureString_required_eq (methodName sigStr : String) (p : ParamInfo)
    (hp : p ∈ (parseSignatureString methodName sigStr).parameters) :
    p.required = p.default.isNone := by
  unfold parseSignatureString at hp
  dsimp only at hp
  rcases hg : firstParenGroup sigStr with _ | g <;> rw [hg] at hp <;> dsimp only at hp
  · simp at hp
  · split at hp
    · simp at hp
    · obtain ⟨frag, _, hfrag⟩ := List.mem_filterMap.mp hp
      exact parseParam_required_eq frag p hfrag

theorem pythonTypeToJson_first_alternative (t a : String) (rest : List String)
    (hbar : strContains t "|" = true)
    (hfilter : ((splitChar '|' t.data).map pyStrip).filter
      (fun x => !(pyLower x == "none" || pyLower x == "nonetype")) = a :: rest) :
    pythonTypeToJson t = baseJsonType a := by
  unfold pythonTypeToJson foldUnionTypes
  rw [hbar]
  simp only [hfilter, if_true]

/-! ## Claim C5 and C7 theorems -/

/-- The parsed signature of the worked example in the spec. -/
def getListSig : MethodSignature :=
  parseSignatureString "get_list" "get_list(filter: str, top: int = 100) -> list[Contact]"

/-- C7: parsing `"get_list(filter: str, top: int = 100) -> list[Contact]"`
and feeding the result to the schema generators yields a request schema
whose `required` list is exactly `["filter"]` and whose
`properties.top.default` equals the string `"100"`, and a response schema
whose `data` member has type `"array"`. -/
theorem c7_worked_example :
    (generateRequestSchema getListSig).required = ["filter"] ∧
    (pyDictGet "top" (generateRequestSchema getListSig).properties).map PropSchema.default =
      some (some "100") ∧
    (generateResponseSchema getListSig).data.type = "array" := by
  refine ⟨by decide, by decide, by decide⟩

/-- The parameter parsed from the fragment `x: str | None` of the C5
counterexample signature. -/
def unionParam : ParamInfo :=
  { name := "x", required := true, default := none,
    type := { type := "string", pythonType := "str | None" } }

/-- C5 (counterexample): for the registry signature
`test(x: str | None) -> str`, the parameter `x` has union type `str | None`
with one non-null alternative and no default; the claim says it is marked
optional and left out of the request schema's `required` array, but the
source marks a parameter required exactly when it has no default, so `x` is
parsed as required and `required = ["x"]`. -/
theorem c5_counterexample :
    (parseSignatureString "test" "test(x: str | None) -> str").parameters = [unionParam] ∧
    unionParam.required = true ∧
    (generateRequestSchema (parseSignatureString "test" "test(x: str | None) -> str")).required
      = ["x"] := by
  refine ⟨by decide, by decide, by decide⟩

/-- C5 (amended): for a parameter of union type the recorded JSON type is
that of the first non-null alternative (in particular the single remaining
alternative `A` of `A | None`), but the parameter is **not** marked
optional: every parsed parameter is required exactly when it has no
declared default, and every required parameter is listed in
`generateRequestSchema`'s `required` array. -/
theorem c5_union_folding :
    (∀ t a rest, strContains t "|" = true →
      ((splitChar '|' t.data).map pyStrip).filter
        (fun x => !(pyLower x == "none" || pyLower x == "nonetype")) = a :: rest →
      pythonTypeToJson t = baseJsonType a) ∧
    (∀ methodName sigStr p, p ∈ (parseSignatureString methodName sigStr).parameters →
      p.required = p.default.isNone) ∧
    (∀ sig p, p ∈ sig.parameters → p.required = true →
      p.name ∈ (generateRequestSchema sig).required) :=
  ⟨pythonTypeToJson_first_alternative,
   parseSignatureString_required_eq,
   mem_generateRequestSchema_required⟩

/-- C5 witness: the union type `str | None` folds to JSON type `string`,
and the concrete parameter `x` of the counterexample signature is required
and listed in the `required` array. -/
theorem c5_union_folding_witness :
    pythonTypeToJson "str | None" = baseJsonType "str" ∧
    unionParam.required = unionParam.default.isNone ∧
    unionParam.name ∈ (generateRequestSchema
      (parseSignatureString "test" "test(x: str | None) -> str")).required :=
  ⟨c5_union_folding.1 "str | None" "str" [] (by decide) (by decide),
   c5_union_folding.2.1 "test" "test(x: str | None) -> str" unionParam (by decide),
   c5_union_folding.2.2 (parseSignatureString "test" "test(x: str | None) -> str")
     unionParam (by decide) (by decide)⟩

/-! ## Claim C6: example requests -/

/-- Stated from the (amended) spec's words: the type-directed placeholder
value for a parameter — `example_<name>` for string, `0` for integer, `0.0`
for number, `true` for boolean, `[]` for array, `{}` for object, null
otherwise. -/
def specBaseValue (p : ParamInfo) : JsonValue :=
  if p.type.type = "string" then .jstr ("example_" ++ p.name)
  else if p.type.type = "integer" then .jint 0
  else if p.type.type = "number" then .jnum 0
  else if p.type.type = "boolean" then .jbool true
  else if p.type.type = "array" then .jarr []
  else if p.type.type = "object" then .jobj []
  else .jnull

/-- Stated from the (amended) spec's words: the example value is the
placeholder, except that an optional parameter whose default is a non-empty
string other than `'None'` uses that default. -/
def specExampleValue (p : ParamInfo) : JsonValue :=
  match p.default with
  | some d =>
    if p.required = false ∧ d ≠ "" ∧ d ≠ "None" then .jstr d else specBaseValue p
  | none => specBaseValue p

theorem exampleValue_eq_spec (p : ParamInfo) : exampleValue p = specExampleValue p := by
  unfold exampleValue specExampleValue specBaseValue
  rcases p.default with _ | d <;> dsimp only <;>
    simp only [beq_iff_eq]

theorem pyDictGet_append {α : Type} (k : String) (xs ys : List (String × α)) :
    pyDictGet k (xs ++ ys) =
      match pyDictGet k xs with
      | some v => some v
      | none => pyDictGet k ys := by
  induction xs with
  | nil => simp [pyDictGet]
  | cons x xs ih =>
    rcases x with ⟨k', v⟩
    by_cases hk : k' == k <;> simp [pyDictGet, hk, ih]

theorem pyDictInsert_of_get_none {α : Type} (k : String) (v : α)
    (xs : List (String × α)) (h : pyDictGet k xs = none) :
    pyDictInsert k v xs = xs ++ [(k, v)] := by
  induction xs with
  | nil => rfl
  | cons x xs ih =>
    rcases x with ⟨k', v'⟩
    by_cases hk : k' == k
    · simp [pyDictGet, hk] at h
    · simp only [pyDictGet, hk] at h
      simp [pyDictInsert, hk, ih h]

theorem exampleFold_eq_map (ps : List ParamInfo) :
    ∀ acc : List (String × JsonValue),
      (∀ p ∈ ps, pyDictGet p.name acc = none) →
      (ps.map ParamInfo.name).Nodup →
      ps.foldl (fun acc p => pyDictInsert p.name (exampleValue p) acc) acc =
        acc ++ ps.map (fun p => (p.name, exampleValue p)) := by
  induction ps with
  | nil => intro acc _ _; simp
  | cons p ps ih =>
    intro acc hacc hnodup
    rw [List.foldl_cons,
      pyDictInsert_of_get_none p.name (exampleValue p) acc (hacc p (by simp)),
      ih (acc ++ [(p.name, exampleValue p)]) ?_ ((List.nodup_cons.mp hnodup).2)]
    · simp
    · intro q hq
      rw [pyDictGet_append, hacc q (List.mem_cons_of_mem p hq)]
      have hne : (p.name == q.name) = false := by
        simp only [beq_eq_false_iff_ne]
        intro hcontr
        exact (List.nodup_cons.mp hnodup).1
          (hcontr ▸ List.mem_map.mpr ⟨q, hq, rfl⟩)
      simp [pyDictGet, hne]

theorem pyDictGet_map_name (ps : List ParamInfo) (p : ParamInfo)
    (hp : p ∈ ps) (hnodup : (ps.map ParamInfo.name).Nodup) :
    pyDictGet p.name (ps.map (fun p => (p.name, exampleValue p))) =
      some (exampleValue p) := by
  induction ps with
  | nil => simp at hp
  | cons q qs ih =>
    rcases List.mem_cons.mp hp with hpq | hpmem
    · subst hpq
      simp [pyDictGet]
    · have hne : q.name ≠ p.name := by
        intro hcontr
        exact (List.nodup_cons.mp hnodup).1
          (hcontr ▸ List.mem_map.mpr ⟨p, hpmem, rfl⟩)
      have : (q.name == p.name) = false := by simp [hne]
      simp only [List.map_cons, pyDictGet, this, if_false]
      exact ih hpmem (List.nodup_cons.mp hnodup).2

/-- The one-parameter signature used as C6's concrete counterexample. -/
def stringParamSig : MethodSignature :=
  { methodName := "m",
    parameters := [{ name := "x", required := true, default := none,
                     type := { type := "string", pythonType := "str" } }],
    hasReturnType := false, returnType := none }

/-- C6 (counterexample): for a required string parameter named `x`,
`generate_example_request` produces the value `"example_x"`, not the empty
string the claim specifies. -/
theorem c6_counterexample :
    generateExampleRequest stringParamSig = [("x", JsonValue.jstr "example_x")] ∧
    JsonValue.jstr "example_x" ≠ JsonValue.jstr "" := by
  constructor
  · rfl
  · intro h
    injection h with h'
    exact absurd h' (by decide)

/-- C6 (amended): for every method signature with distinct parameter names,
`generateExampleRequest` produces exactly one example value per parameter,
determined by the parameter's structural type — `example_<name>` for
string, `0` for integer, `0.0` for number, `true` for boolean, `[]` for
array, `{}` for object — except that when the parameter is optional and its
default value is present, non-empty and not `'None'`, that default is used
instead (as the string it was parsed from). -/
theorem c6_example_request (sig : MethodSignature)
    (hnodup : (sig.parameters.map ParamInfo.name).Nodup) :
    (generateExampleRequest sig).length = sig.parameters.length ∧
    ∀ p ∈ sig.parameters,
      pyDictGet p.name (generateExampleRequest sig) = some (specExampleValue p) := by
  have hfold := exampleFold_eq_map sig.parameters []
    (by intro p _; rfl) hnodup
  have hgen : generateExampleRequest sig =
      sig.parameters.map (fun p => (p.name, exampleValue p)) := by
    unfold generateExampleRequest
    rw [hfold]; simp
  constructor
  · rw [hgen]; simp
  · intro p hp
    rw [hgen, pyDictGet_map_name sig.parameters p hp hnodup, exampleValue_eq_spec]

/-- C6 witness: the amended claim applied to the concrete one-parameter
signature `stringParamSig`. -/
theorem c6_example_request_witness :
    pyDictGet "x" (generateExampleRequest stringParamSig) =
      some (specExampleValue { name := "x", required := true, default := none,
                               type := { type := "string", pythonType := "str" } }) :=
  (c6_example_request stringParamSig (by decide)).2
    { name := "x", required := true, default := none,
      type := { type := "string", pythonType := "str" } } (by decide)

/-! ## Endpoint executor (`EndpointExecutor.execute_endpoint`)

The executor is embedded as a pure function over an environment describing
the outcomes of its collaborators (the service-group and endpoint queries,
the connection pool, the two `getattr` lookups and the remote invocation)
and the list of persisted `EndpointExecution` rows.  The request/response
payload columns and the HTTP metadata columns of `EndpointExecution`
(request path, IP, user agent) do not bear on any claim and are outside the
model. -/

/-- A `ServiceGroup` row as seen by the executor. -/
structure ServiceGroupRow where
  isActive : Bool
deriving DecidableEq, Repr

/-- An `Endpoint` row as seen by the executor. -/
structure EndpointRow where
  id : Nat
  isActive : Bool
deriving DecidableEq, Repr

/-- Outcome of `method(**request_body)`: a result, a `TypeError`, or any
other exception. -/
inductive InvokeOutcome where
  | ok : JsonValue → InvokeOutcome
  | typeError : String → InvokeOutcome
  | raised : String → InvokeOutcome

/-- One `EndpointExecution` row (the columns the claims speak about). -/
structure ExecutionRecord where
  endpointId : Nat
  executedAt : Int
  durationMs : Nat
  statusCode : Nat
  errorMessage : Option String
deriving DecidableEq, Repr

/-- The collaborator outcomes of one `execute_endpoint` call. -/
structure ExecEnv where
  serviceGroupName : String
  serviceName : String
  methodName : String
  serviceGroup : Option ServiceGroupRow
  endpoint : Option EndpointRow
  connection : Except String Unit
  serviceFound : Bool
  methodFound : Bool
  invoke : InvokeOutcome
  durationMs : Nat
  executedAt : Int

/-- The JSON envelope `execute_endpoint` returns. -/
structure ExecResponse where
  success : Bool
  error : Option String
  data : Option JsonValue

/-- Embedding of `EndpointExecutor.execute_endpoint`: resolve the service
group (404/403), the endpoint (404/403), acquire a pooled connection (a
failure here raises and is caught by the outer handler, which logs a
status-500 `EndpointExecution` because the endpoint is already known),
resolve service and method (404), invoke (`TypeError` becomes 400, any
other exception becomes 500 — both returned directly, before the logging
code), and on success append a status-200 record. -/
def executeEndpoint (env : ExecEnv) (db : List ExecutionRecord) :
    (ExecResponse × Nat) × List ExecutionRecord :=
  match env.serviceGroup with
  | none =>
    (({ success := false,
        error := some ("Service group not found: " ++ env.serviceGroupName),
        data := none }, 404), db)
  | some sg =>
    if !sg.isActive then
      (({ success := false, error := some "Service group is inactive", data := none }, 403), db)
    else
      match env.endpoint with
      | none =>
        (({ success := false,
            error := some ("Endpoint not found: " ++ env.serviceName ++ "." ++ env.methodName),
            data := none }, 404), db)
      | some ep =>
        if !ep.isActive then
          (({ success := false, error := some "Endpoint is inactive", data := none }, 403), db)
        else
          match env.connection with
          | .error msg =>
            (({ success := false, error := some msg, data := none }, 500),
             db ++ [{ endpointId := ep.id, executedAt := env.executedAt,
                      durationMs := env.durationMs, statusCode := 500,
                      errorMessage := some msg }])
          | .ok _ =>
            if !env.serviceFound then
              (({ success := false,
                  error := some ("Service not found: " ++ env.serviceName),
                  data := none }, 404), db)
            else if !env.methodFound then
              (({ success := false,
                  error := some ("Method not found: " ++ env.serviceName ++ "." ++ env.methodName),
                  data := none }, 404), db)
            else
              match env.invoke with
              | .typeError m =>
                (({ success := false, error := some ("Invalid parameters: " ++ m),
                    data := none }, 400), db)
              | .raised m =>
                (({ success := false, error := some ("Execution error: " ++ m),
                    data := none }, 500), db)
              | .ok v =>
                (({ success := true, error := none, data := some v }, 200),
                 db ++ [{ endpointId := ep.id, executedAt := env.executedAt,
                          durationMs := env.durationMs, statusCode := 200,
                          errorMessage := none }])

/-- Embedding of Python `str.startswith`. -/
def pyStartsWith (s pre : String) : Bool :=
  listStartsWith s.data pre.data

theorem listStartsWith_prepend (pre extra : List Char) :
    listStartsWith (pre ++ extra) pre = true := by
  induction pre with
  | nil => cases extra <;> rfl
  | cons c cs ih => simp [listStartsWith, ih]

/-! ## Claim C9: inactive endpoint or group -/

/-- C9: when the service group resolves but is inactive, or the endpoint
resolves but is inactive, `execute_endpoint` returns status 403 with
`success = false` and the stored `EndpointExecution` rows are unchanged. -/
theorem c9_inactive_403_no_record :
    ∀ (env : ExecEnv) (db : List ExecutionRecord) (sg : ServiceGroupRow),
      env.serviceGroup = some sg →
      ((sg.isActive = false →
        executeEndpoint env db =
          (({ success := false, error := some "Service group is inactive",
              data := none }, 403), db)) ∧
       (∀ ep : EndpointRow, sg.isActive = true → env.endpoint = some ep →
        ep.isActive = false →
        executeEndpoint env db =
          (({ success := false, error := some "Endpoint is inactive",
              data := none }, 403), db))) := by
  intro env db sg hsg
  constructor
  · intro hsga
    simp [executeEndpoint, hsg, hsga]
  · intro ep hsga hep hepa
    simp [executeEndpoint, hsg, hsga, hep, hepa]

/-- Concrete environment with an inactive endpoint. -/
def c9Env : ExecEnv :=
  { serviceGroupName := "crm", serviceName := "Contact", methodName := "get_list",
    serviceGroup := some { isActive := true },
    endpoint := some { id := 2, isActive := false },
    connection := .ok (), serviceFound := true, methodFound := true,
    invoke := .ok JsonValue.jnull, durationMs := 3, executedAt := 0 }

/-- C9 witness: the inactive-endpoint clause at the concrete environment
`c9Env` with an empty execution log. -/
theorem c9_inactive_403_no_record_witness :
    executeEndpoint c9Env [] =
      (({ success := false, error := some "Endpoint is inactive",
          data := none }, 403), []) :=
  (c9_inactive_403_no_record c9Env [] { isActive := true } rfl).2
    { id := 2, isActive := false } rfl rfl rfl

/-! ## Claim C1: remote call raises -/

/-- Concrete environment whose remote invocation raises a non-`TypeError`
exception. -/
def c1Env : ExecEnv :=
  { serviceGroupName := "crm", serviceName := "SalesOrder", methodName := "get_list",
    serviceGroup := some { isActive := true },
    endpoint := some { id := 1, isActive := true },
    connection := .ok (), serviceFound := true, methodFound := true,
    invoke := .raised "boom", durationMs := 5, executedAt := 0 }

/-- C1 (counterexample): an active group, an active endpoint and a remote
call that raises yield status 500 with a non-empty error — but the inner
`except Exception` handler returns directly, so **no** `EndpointExecution`
row is written, contradicting the claim's "exactly one ExecutionRecord with
statusCode == 500". -/
theorem c1_counterexample :
    (executeEndpoint c1Env []).1.2 = 500 ∧
    (executeEndpoint c1Env []).1.1.error = some "Execution error: boom" ∧
    (executeEndpoint c1Env []).2 = [] :=
  ⟨rfl, rfl, rfl⟩

/-- C1 (amended): for every call that resolves an active service group and
an active endpoint, acquires a connection and resolves the service and
method, if the invoked remote method raises an exception other than a
`TypeError`, `execute_endpoint` returns status 500 with the non-empty error
message `Execution error: <msg>` and writes **no** `EndpointExecution` row:
the stored rows are unchanged (the status-500 row is only written by the
outer handler, e.g. when connection acquisition fails after the endpoint
was identified). -/
theorem c1_execution_error (env : ExecEnv) (db : List ExecutionRecord)
    (sg : ServiceGroupRow) (ep : EndpointRow) (m : String)
    (hsg : env.serviceGroup = some sg) (hsga : sg.isActive = true)
    (hep : env.endpoint = some ep) (hepa : ep.isActive = true)
    (hconn : env.connection = .ok ()) (hsf : env.serviceFound = true)
    (hmf : env.methodFound = true) (hinv : env.invoke = .raised m) :
    (executeEndpoint env db).1.2 = 500 ∧
    (executeEndpoint env db).1.1.success = false ∧
    (executeEndpoint env db).1.1.error = some ("Execution error: " ++ m) ∧
    "Execution error: " ++ m ≠ "" ∧
    (executeEndpoint env db).2 = db := by
  have hne : "Execution error: " ++ m ≠ "" := by
    intro hemp
    have h' := congrArg String.data hemp
    rw [show ("Execution error: " ++ m).data = "Execution error: ".data ++ m.data from rfl]
      at h'
    exact absurd (List.append_eq_nil.mp h').1 (by decide)
  simp [executeEndpoint, hsg, hsga, hep, hepa, hconn, hsf, hmf, hinv, hne]

/-- C1 witness: the amended claim at the concrete environment `c1Env`. -/
theorem c1_execution_error_witness :
    (executeEndpoint c1Env []).1.2 = 500 ∧
    (executeEndpoint c1Env []).1.1.success = false ∧
    (executeEndpoint c1Env []).1.1.error = some ("Execution error: " ++ "boom") ∧
    "Execution error: " ++ "boom" ≠ "" ∧
    (executeEndpoint c1Env []).2 = [] :=
  c1_execution_error c1Env [] { isActive := true } { id := 1, isActive := true }
    "boom" rfl rfl rfl rfl rfl rfl rfl rfl

/-! ## Claim C10: TypeError classification -/

/-- C10: once the remote call is reached, `execute_endpoint` returns status
400 with an error message beginning `Invalid parameters:` exactly when the
invocation raised a `TypeError` — classification is by exception type, so a
`TypeError` raised inside the remote method body is also classified as 400
rather than 500. -/
theorem c10_typeError_classification (env : ExecEnv) (db : List ExecutionRecord)
    (sg : ServiceGroupRow) (ep : EndpointRow)
    (hsg : env.serviceGroup = some sg) (hsga : sg.isActive = true)
    (hep : env.endpoint = some ep) (hepa : ep.isActive = true)
    (hconn : env.connection = .ok ()) (hsf : env.serviceFound = true)
    (hmf : env.methodFound = true) :
    ((executeEndpoint env db).1.2 = 400 ∧
     ∃ e, (executeEndpoint env db).1.1.error = some e ∧
       pyStartsWith e "Invalid parameters:" = true) ↔
    ∃ m, env.invoke = InvokeOutcome.typeError m := by
  rcases hinv : env.invoke with v | m | m
  · simp [executeEndpoint, hsg, hsga, hep, hepa, hconn, hsf, hmf, hinv]
  · simp [executeEndpoint, hsg, hsga, hep, hepa, hconn, hsf, hmf, hinv]
    show listStartsWith ("Invalid parameters: ".data ++ m.data)
      "Invalid parameters:".data = true
    have hdata : "Invalid parameters: ".data =
        "Invalid parameters:".data ++ [' '] := by decide
    rw [hdata, List.append_assoc]
    exact listStartsWith_prepend _ _
  · simp [executeEndpoint, hsg, hsga, hep, hepa, hconn, hsf, hmf, hinv]

/-- Concrete environment whose remote invocation raises a `TypeError`. -/
def c10Env : ExecEnv :=
  { serviceGroupName := "crm", serviceName := "Contact", methodName := "create",
    serviceGroup := some { isActive := true },
    endpoint := some { id := 3, isActive := true },
    connection := .ok (), serviceFound := true, methodFound := true,
    invoke := .typeError "unexpected keyword argument", durationMs := 2, executedAt := 0 }

/-- C10 witness: the classification applied at the concrete environment
`c10Env`. -/
theorem c10_typeError_classification_witness :
    (executeEndpoint c10Env []).1.2 = 400 ∧
    ∃ e, (executeEndpoint c10Env []).1.1.error = some e ∧
      pyStartsWith e "Invalid parameters:" = true :=
  (c10_typeError_classification c10Env [] { isActive := true }
    { id := 3, isActive := true } rfl rfl rfl rfl rfl rfl rfl).mpr
    ⟨"unexpected keyword argument", rfl⟩

/-! ## Connection pool, functional view (`ConnectionPool.get_connection`)

For C3 the state the pool keeps for one tenant — the
`client_id -> (acumatica_client, last_used)` entry — is modelled
explicitly; `_create_connection` is modelled with its client lookup,
activity check, credential decryption and login steps, each outcome a
parameter. -/

/-- The decrypted view of a `Client` row as `_create_connection` consumes
it: the decrypted credentials (`none` models a decryption failure /
`decrypt` returning `None`) and the outcome of `login()`. -/
structure ClientRec where
  isActive : Bool
  decryptedUsername : Option String
  decryptedPassword : Option String
  loginResult : Except String Unit
deriving Repr

/-- Embedding of `ConnectionPool._create_connection`: raise when the client
row is missing or inactive, when either credential decrypts falsy, or when
`login()` raises; otherwise return the freshly created session handle. -/
def createConnection (clientId : String) (client : Option ClientRec)
    (freshHandle : Nat) : Except String Nat :=
  match client with
  | none => .error ("Client " ++ clientId ++ " not found")
  | some c =>
    if !c.isActive then .error ("Client " ++ clientId ++ " is inactive")
    else
      let username := c.decryptedUsername.getD ""
      let password := c.decryptedPassword.getD ""
      if username = "" ∨ password = "" then
        .error "Failed to decrypt client credentials. The encryption key may have changed. Please delete and recreate this client."
      else
        match c.loginResult with
        | .error e => .error e
        | .ok _ => .ok freshHandle

/-- The pool's cached entry for one tenant:
`(acumatica_client, last_used_timestamp)`. -/
structure PoolEntry where
  handle : Nat
  lastUsed : Int
deriving DecidableEq, Repr

/-- The idle window: `timedelta(minutes=30)`, in seconds. -/
def idleWindowSeconds : Int := 30 * 60

/-- Embedding of the body of `ConnectionPool.get_connection` for one tenant
(run under that tenant's lock): reuse a fresh entry (refreshing
`last_used`); on a stale entry, attempt best-effort logout and fall through
to creation; cache the new session only when creation succeeds.  A creation
failure propagates as the raised exception and performs **no** dict
mutation — in particular a stale entry is not removed. -/
def getConnectionF (now : Int) (entry : Option PoolEntry)
    (client : Option ClientRec) (clientId : String) (freshHandle : Nat) :
    Except String Nat × Option PoolEntry :=
  match entry with
  | some e =>
    if now - e.lastUsed < idleWindowSeconds then
      (.ok e.handle, some { handle := e.handle, lastUsed := now })
    else
      match createConnection clientId client freshHandle with
      | .error m => (.error m, some e)
      | .ok h => (.ok h, some { handle := h, lastUsed := now })
  | none =>
    match createConnection clientId client freshHandle with
    | .error m => (.error m, none)
    | .ok h => (.ok h, some { handle := h, lastUsed := now })

/-- C3 (counterexample): with a stale cached entry (handle 7, last used at
time 0, queried at time 1800 s = 30 min) and a failing creation (client row
missing), `get_connection` raises — and the stale entry is **still cached**:
the dict entry is only ever overwritten on success, never deleted on the
failure path, contradicting "the pool caches no session entry for that
tenant; the stale entry has been discarded". -/
theorem c3_counterexample :
    (getConnectionF 1800 (some { handle := 7, lastUsed := 0 }) none "t1" 8).1 =
      .error "Client t1 not found" ∧
    (getConnectionF 1800 (some { handle := 7, lastUsed := 0 }) none "t1" 8).2 =
      some { handle := 7, lastUsed := 0 } ∧
    (getConnectionF 1800 (some { handle := 7, lastUsed := 0 }) none "t1" 8).2 ≠ none := by
  refine ⟨rfl, rfl, by decide⟩

/-- C3 (amended): whenever `get_connection` fails (client row missing or
inactive, credential decryption failure, or remote login failure), the
pool's entry for that tenant is left exactly as it was: when no entry was
cached, none is cached after the failure; but a cached-but-stale entry is
*not* discarded — it survives the failed call (it was logged out
best-effort, yet remains in the dict until a creation succeeds). -/
theorem c3_failure_keeps_entry (now : Int) (entry : Option PoolEntry)
    (client : Option ClientRec) (clientId : String) (freshHandle : Nat) (m : String)
    (hfail : (getConnectionF now entry client clientId freshHandle).1 = .error m) :
    (getConnectionF now entry client clientId freshHandle).2 = entry := by
  rcases entry with _ | e
  · rcases h : createConnection clientId client freshHandle with e' | h'
    · simp [getConnectionF, h]
    · simp [getConnectionF, h] at hfail
  · by_cases hfresh : now - e.lastUsed < idleWindowSeconds
    · simp [getConnectionF, hfresh] at hfail
    · rcases h : createConnection clientId client freshHandle with e' | h'
      · simp [getConnectionF, hfresh, h]
      · simp [getConnectionF, hfresh, h] at hfail

/-- C3 witness: the amended claim applied at the concrete stale-entry state
of the counterexample. -/
theorem c3_failure_keeps_entry_witness :
    (getConnectionF 1800 (some { handle := 7, lastUsed := 0 }) none "t1" 8).2 =
      some { handle := 7, lastUsed := 0 } :=
  c3_failure_keeps_entry 1800 (some { handle := 7, lastUsed := 0 }) none "t1" 8
    "Client t1 not found" rfl

/-! ## Log retention (`LogCleanupService.cleanup_old_logs`) -/

/-- An `Endpoint` row as the cleanup pass consumes it. -/
structure RetentionEndpoint where
  id : Nat
  logRetentionHours : Nat
deriving DecidableEq, Repr

/-- The deletion predicate of one endpoint's cleanup:
`EndpointExecution.endpoint_id == endpoint.id` and
`executed_at < now - timedelta(hours=log_retention_hours)` (times in
seconds). -/
def recExpired (now : Int) (e : RetentionEndpoint) (r : ExecutionRecord) : Bool :=
  r.endpointId == e.id && decide (r.executedAt < now - 3600 * (e.logRetentionHours : Int))

/-- One iteration of the endpoint loop in `cleanup_old_logs`: count the
logs to delete; when positive, delete them, add the count to the total and
bump `endpoints_processed`. State is `(total_deleted, endpoints_processed,
records)`. -/
def cleanupStep (now : Int) (st : Nat × Nat × List ExecutionRecord)
    (e : RetentionEndpoint) : Nat × Nat × List ExecutionRecord :=
  let toDelete := st.2.2.countP (recExpired now e)
  if 0 < toDelete then
    (st.1 + toDelete, st.2.1 + 1, st.2.2.filter (fun r => !recExpired now e r))
  else st

/-- Embedding of `LogCleanupService.cleanup_old_logs` (the single commit at
the end of the pass is the returned state). -/
def cleanupOldLogs (now : Int) (endpoints : List RetentionEndpoint)
    (records : List ExecutionRecord) : Nat × Nat × List ExecutionRecord :=
  endpoints.foldl (cleanupStep now) (0, 0, records)

theorem countP_or_filter {α : Type} (p q : α → Bool) (l : List α) :
    l.countP (fun a => p a || q a) =
      l.countP p + (l.filter (fun a => !p a)).countP q := by
  induction l with
  | nil => rfl
  | cons a l ih =>
    by_cases hp : p a
    · simp [List.countP_cons, List.filter_cons, hp, ih]
      omega
    · simp [List.countP_cons, List.filter_cons, hp, ih]
      omega

theorem cleanup_records_foldl (now : Int) (eps : List RetentionEndpoint) :
    ∀ (td pc : Nat) (recs : List ExecutionRecord),
      (eps.foldl (cleanupStep now) (td, pc, recs)).2.2 =
        recs.filter (fun r => !eps.any (fun e => recExpired now e r)) := by
  induction eps with
  | nil => intro td pc recs; simp
  | cons e es ih =>
    intro td pc recs
    rw [List.foldl_cons]
    by_cases h0 : 0 < recs.countP (recExpired now e)
    · rw [show cleanupStep now (td, pc, recs) e =
          (td + recs.countP (recExpired now e), pc + 1,
           recs.filter (fun r => !recExpired now e r)) from by
        simp [cleanupStep, h0]]
      rw [ih, List.filter_filter]
      apply List.filter_congr
      intro r _
      simp [Bool.not_or, Bool.and_comm]
    · rw [show cleanupStep now (td, pc, recs) e = (td, pc, recs) from by
        simp [cleanupStep, h0]]
      rw [ih]
      have hall : ∀ r ∈ recs, recExpired now e r = false := by
        intro r hr
        have := List.countP_eq_zero.mp (Nat.eq_zero_of_not_pos h0) r hr
        simpa using this
      apply List.filter_congr
      intro r hr
      simp [hall r hr]

theorem cleanup_total_foldl (now : Int) (eps : List RetentionEndpoint) :
    ∀ (td pc : Nat) (recs : List ExecutionRecord),
      (eps.foldl (cleanupStep now) (td, pc, recs)).1 =
        td + recs.countP (fun r => eps.any (fun e => recExpired now e r)) := by
  induction eps with
  | nil => intro td pc recs; simp
  | cons e es ih =>
    intro td pc recs
    rw [List.foldl_cons]
    by_cases h0 : 0 < recs.countP (recExpired now e)
    · rw [show cleanupStep now (td, pc, recs) e =
          (td + recs.countP (recExpired now e), pc + 1,
           recs.filter (fun r => !recExpired now e r)) from by
        simp [cleanupStep, h0]]
      rw [ih]
      have hsplit := countP_or_filter (recExpired now e)
        (fun r => es.any (fun e' => recExpired now e' r)) recs
      simp only [List.any_cons]
      omega
    · rw [show cleanupStep now (td, pc, recs) e = (td, pc, recs) from by
        simp [cleanupStep, h0]]
      rw [ih]
      have hall : ∀ r ∈ recs, recExpired now e r = false := by
        intro r hr
        have := List.countP_eq_zero.mp (Nat.eq_zero_of_not_pos h0) r hr
        simpa using this
      congr 1
      rw [List.countP_eq_length_filter, List.countP_eq_length_filter]
      congr 1
      apply List.filter_congr
      intro r hr
      simp [hall r hr]

/-- C8: `cleanup_old_logs` deletes, for every endpoint, exactly the
execution records of that endpoint with `executed_at` earlier than
`now - retention`, and `total_deleted` counts exactly the deleted records;
in the concrete two-endpoint scenario (retentions 1 h and 24 h, one record
each of age 2 h) only the first endpoint's record is deleted and the result
reports `total_deleted = 1` and `endpoints_processed = 1`. -/
theorem c8_cleanup_old_logs :
    (∀ (now : Int) (eps : List RetentionEndpoint) (recs : List ExecutionRecord),
      (cleanupOldLogs now eps recs).2.2 =
        recs.filter (fun r => !eps.any (fun e => recExpired now e r)) ∧
      (cleanupOldLogs now eps recs).1 =
        recs.countP (fun r => eps.any (fun e => recExpired now e r))) ∧
    cleanupOldLogs 0
      [{ id := 1, logRetentionHours := 1 }, { id := 2, logRetentionHours := 24 }]
      [{ endpointId := 1, executedAt := -7200, durationMs := 10, statusCode := 200,
         errorMessage := none },
       { endpointId := 2, executedAt := -7200, durationMs := 10, statusCode := 200,
         errorMessage := none }] =
      (1, 1, [{ endpointId := 2, executedAt := -7200, durationMs := 10,
                statusCode := 200, errorMessage := none }]) := by
  constructor
  · intro now eps recs
    exact ⟨cleanup_records_foldl now eps 0 0 recs,
           by simpa [cleanupOldLogs] using cleanup_total_foldl now eps 0 0 recs⟩
  · decide

/-! ## Connection pool under concurrency (claim C2)

`ConnectionPool.get_connection` is embedded as a labelled transition system
over the state shared by N threads that concurrently request a connection
for the *same* tenant which has no prior cached session.  The source's
locking structure is kept: the pool-wide `_global_lock` guards the
check-and-create of the per-tenant lock; the per-tenant lock serialises the
cache check, `login()` and the cache store.  The burst is modelled at a
single instant, so the freshness check `now - last_used < 30 min` on a
session stored during the burst is identically true (`0 - 0 < 1800`); the
`last_used` refresh on reuse therefore does not change the state.  Handles
are numbered by the login that created them (`login()` number k returns
handle k). -/

namespace Pool

/-- Program locations of one thread executing `get_connection`. -/
inductive Loc where
  | start : Loc
  | gotGlobal : Loc
  | waitTenant : Loc
  | inCS : Loc
  | creating : Loc
  | storing : Nat → Loc
  | finished : Nat → Loc
deriving DecidableEq, Repr

/-- Locations at which a thread holds the per-tenant lock. -/
def holdsTenantLock : Loc → Bool
  | .inCS => true
  | .creating => true
  | .storing _ => true
  | _ => false

/-- Locations at which a thread has called `login()` but not yet stored the
session in the pool dict. -/
def isStoring : Loc → Bool
  | .storing _ => true
  | _ => false

/-- The shared state of the pool and the `n` threads, for one tenant:
`_global_lock`, the existence of `_locks[client_id]`, the per-tenant lock,
`_connections[client_id]` (the cached handle), the number of `login()`
calls made, and each thread's location. -/
structure PoolState (n : Nat) where
  globalOwner : Option (Fin n)
  lockExists : Bool
  tenantOwner : Option (Fin n)
  conn : Option Nat
  loginCount : Nat
  locs : Fin n → Loc

/-- The interleaving semantics of `get_connection`: one constructor per
atomic step of one thread.

* `acquireGlobal` — enter `with self._global_lock`;
* `ensureTenantLock` — `if client_id not in self._locks: self._locks[client_id] = Lock()` and release the global lock (both under the global lock, so collapsed into one atomic step; no other shared variable is touched);
* `acquireTenant` — enter `with self._locks[client_id]` (requires the lock object to exist);
* `reuse` — cache hit and fresh: return the cached handle, release the tenant lock;
* `missConn` — cache miss observed;
* `login` — `_create_connection` succeeds: `login()` call number `k+1` produces handle `k+1`;
* `store` — `self._connections[client_id] = (client, now)`, release the tenant lock, return. -/
inductive Step (n : Nat) : PoolState n → PoolState n → Prop where
  | acquireGlobal (s : PoolState n) (t : Fin n) :
      s.locs t = .start → s.globalOwner = none →
      Step n s { s with globalOwner := some t,
                        locs := Function.update s.locs t .gotGlobal }
  | ensureTenantLock (s : PoolState n) (t : Fin n) :
      s.locs t = .gotGlobal → s.globalOwner = some t →
      Step n s { s with globalOwner := none, lockExists := true,
                        locs := Function.update s.locs t .waitTenant }
  | acquireTenant (s : PoolState n) (t : Fin n) :
      s.locs t = .waitTenant → s.lockExists = true → s.tenantOwner = none →
      Step n s { s with tenantOwner := some t,
                        locs := Function.update s.locs t .inCS }
  | reuse (s : PoolState n) (t : Fin n) (h : Nat) :
      s.locs t = .inCS → s.tenantOwner = some t → s.conn = some h →
      Step n s { s with tenantOwner := none,
                        locs := Function.update s.locs t (.finished h) }
  | missConn (s : PoolState n) (t : Fin n) :
      s.locs t = .inCS → s.tenantOwner = some t → s.conn = none →
      Step n s { s with locs := Function.update s.locs t .creating }
  | login (s : PoolState n) (t : Fin n) :
      s.locs t = .creating → s.tenantOwner = some t →
      Step n s { s with loginCount := s.loginCount + 1,
                        locs := Function.update s.locs t (.storing (s.loginCount + 1)) }
  | store (s : PoolState n) (t : Fin n) (h : Nat) :
      s.locs t = .storing h → s.tenantOwner = some t →
      Step n s { s with conn := some h, tenantOwner := none,
                        locs := Function.update s.locs t (.finished h) }

/-- The initial state: no locks held, the per-tenant lock not yet created,
no cached session for the tenant, no `login()` calls, every thread at the
start of `get_connection`. -/
def initState (n : Nat) : PoolState n :=
  { globalOwner := none, lockExists := false, tenantOwner := none,
    conn := none, loginCount := 0, locs := fun _ => .start }

/-- States reachable from the initial state by interleaved steps. -/
def Reachable (n : Nat) (s : PoolState n) : Prop :=
  Relation.ReflTransGen (Step n) (initState n) s

/-- The inductive invariant: mutual exclusion on the tenant lock, every
handle in play is handle 1, a logged-in-but-unstored session excludes a
cached one, a thread observing a cache miss has it while the cache is
empty, and the login count is exactly the number of sessions in existence
(cached plus logged-in-but-unstored). -/
def Inv (n : Nat) (s : PoolState n) : Prop :=
  (∀ t, holdsTenantLock (s.locs t) = true → s.tenantOwner = some t) ∧
  (∀ h, s.conn = some h → h = 1) ∧
  (∀ t h, s.locs t = .storing h → h = 1 ∧ s.conn = none) ∧
  (∀ t h, s.locs t = .finished h → h = 1) ∧
  (∀ t, s.locs t = .creating → s.conn = none) ∧
  (s.loginCount = (if s.conn.isSome then 1 else 0) +
    (if ∃ t, isStoring (s.locs t) then 1 else 0))

theorem inv_init (n : Nat) : Inv n (initState n) := by
  refine ⟨?_, ?_, ?_, ?_, ?_, ?_⟩ <;>
    simp [initState, holdsTenantLock, isStoring, Inv]

theorem isStoring_iff (l : Loc) : isStoring l = true ↔ ∃ h, l = .storing h := by
  cases l <;> simp [isStoring]

theorem exists_isStoring_update {n : Nat} (locs : Fin n → Loc) (t : Fin n) (l : Loc)
    (hnew : isStoring l = false) (hold : isStoring (locs t) = false) :
    (∃ u, isStoring (Function.update locs t l u) = true) ↔
      (∃ u, isStoring (locs u) = true) := by
  constructor
  · rintro ⟨u, hu⟩
    rw [Function.update_apply] at hu
    rcases eq_or_ne u t with rfl | hne
    · rw [if_pos rfl] at hu; rw [hnew] at hu; cases hu
    · rw [if_neg hne] at hu; exact ⟨u, hu⟩
  · rintro ⟨u, hu⟩
    rcases eq_or_ne u t with rfl | hne
    · rw [hold] at hu; cases hu
    · exact ⟨u, by rw [Function.update_apply, if_neg hne]; exact hu⟩

theorem inv_step {n : Nat} {s s' : PoolState n} (hinv : Inv n s) (hstep : Step n s s') :
    Inv n s' := by
  obtain ⟨hmutex, hconn1, hstore1, hfin1, hcreat, hcount⟩ := hinv
  cases hstep with
  | acquireGlobal t hloc hglob =>
    refine ⟨?_, hconn1, ?_, ?_, ?_, ?_⟩
    · intro u hu
      dsimp only at hu ⊢
      rw [Function.update_apply] at hu
      rcases eq_or_ne u t with rfl | hne
      · rw [if_pos rfl] at hu; simp [holdsTenantLock] at hu
      · rw [if_neg hne] at hu; exact hmutex u hu
    · intro u h hu
      dsimp only at hu ⊢
      rw [Function.update_apply] at hu
      rcases eq_or_ne u t with rfl | hne
      · rw [if_pos rfl] at hu; cases hu
      · rw [if_neg hne] at hu; exact hstore1 u h hu
    · intro u h hu
      dsimp only at hu ⊢
      rw [Function.update_apply] at hu
      rcases eq_or_ne u t with rfl | hne
      · rw [if_pos rfl] at hu; cases hu
      · rw [if_neg hne] at hu; exact hfin1 u h hu
    · intro u hu
      dsimp only at hu ⊢
      rw [Function.update_apply] at hu
      rcases eq_or_ne u t with rfl | hne
      · rw [if_pos rfl] at hu; cases hu
      · rw [if_neg hne] at hu; exact hcreat u hu
    · dsimp only
      rw [hcount]
      congr 1
      exact if_congr (exists_isStoring_update s.locs t .gotGlobal rfl
        (by rw [hloc]; rfl)).symm rfl rfl
  | ensureTenantLock t hloc hglob =>
    refine ⟨?_, hconn1, ?_, ?_, ?_, ?_⟩
    · intro u hu
      dsimp only at hu ⊢
      rw [Function.update_apply] at hu
      rcases eq_or_ne u t with rfl | hne
      · rw [if_pos rfl] at hu; simp [holdsTenantLock] at hu
      · rw [if_neg hne] at hu; exact hmutex u hu
    · intro u h hu
      dsimp only at hu ⊢
      rw [Function.update_apply] at hu
      rcases eq_or_ne u t with rfl | hne
      · rw [if_pos rfl] at hu; cases hu
      · rw [if_neg hne] at hu; exact hstore1 u h hu
    · intro u h hu
      dsimp only at hu ⊢
      rw [Function.update_apply] at hu
      rcases eq_or_ne u t with rfl | hne
      · rw [if_pos rfl] at hu; cases hu
      · rw [if_neg hne] at hu; exact hfin1 u h hu
    · intro u hu
      dsimp only at hu ⊢
      rw [Function.update_apply] at hu
      rcases eq_or_ne u t with rfl | hne
      · rw [if_pos rfl] at hu; cases hu
      · rw [if_neg hne] at hu; exact hcreat u hu
    · dsimp only
      rw [hcount]
      congr 1
      exact if_congr (exists_isStoring_update s.locs t .waitTenant rfl
        (by rw [hloc]; rfl)).symm rfl rfl
  | acquireTenant t hloc hlk hown =>
    refine ⟨?_, hconn1, ?_, ?_, ?_, ?_⟩
    · intro u hu
      dsimp only at hu ⊢
      rw [Function.update_apply] at hu
      rcases eq_or_ne u t with rfl | hne
      · rfl
      · rw [if_neg hne] at hu
        rw [hmutex u hu] at hown; cases hown
    · intro u h hu
      dsimp only at hu ⊢
      rw [Function.update_apply] at hu
      rcases eq_or_ne u t with rfl | hne
      · rw [if_pos rfl] at hu; cases hu
      · rw [if_neg hne] at hu; exact hstore1 u h hu
    · intro u h hu
      dsimp only at hu ⊢
      rw [Function.update_apply] at hu
      rcases eq_or_ne u t with rfl | hne
      · rw [if_pos rfl] at hu; cases hu
      · rw [if_neg hne] at hu; exact hfin1 u h hu
    · intro u hu
      dsimp only at hu ⊢
      rw [Function.update_apply] at hu
      rcases eq_or_ne u t with rfl | hne
      · rw [if_pos rfl] at hu; cases hu
      · rw [if_neg hne] at hu; exact hcreat u hu
    · dsimp only
      rw [hcount]
      congr 1
      exact if_congr (exists_isStoring_update s.locs t .inCS rfl
        (by rw [hloc]; rfl)).symm rfl rfl
  | reuse t h hloc hown hc =>
    refine ⟨?_, hconn1, ?_, ?_, ?_, ?_⟩
    · intro u hu
      dsimp only at hu ⊢
      rw [Function.update_apply] at hu
      rcases eq_or_ne u t with rfl | hne
      · rw [if_pos rfl] at hu; simp [holdsTenantLock] at hu
      · rw [if_neg hne] at hu
        rw [hmutex u hu] at hown
        exact absurd (Option.some.inj hown) hne
    · intro u h' hu
      dsimp only at hu ⊢
      rw [Function.update_apply] at hu
      rcases eq_or_ne u t with rfl | hne
      · rw [if_pos rfl] at hu; cases hu
      · rw [if_neg hne] at hu; exact hstore1 u h' hu
    · intro u h' hu
      dsimp only at hu ⊢
      rw [Function.update_apply] at hu
      rcases eq_or_ne u t with rfl | hne
      · rw [if_pos rfl] at hu
        cases hu
        exact hconn1 h hc
      · rw [if_neg hne] at hu; exact hfin1 u h' hu
    · intro u hu
      dsimp only at hu ⊢
      rw [Function.update_apply] at hu
      rcases eq_or_ne u t with rfl | hne
      · rw [if_pos rfl] at hu; cases hu
      · rw [if_neg hne] at hu; exact hcreat u hu
    · dsimp only
      rw [hcount]
      congr 1
      exact if_congr (exists_isStoring_update s.locs t (.finished h) rfl
        (by rw [hloc]; rfl)).symm rfl rfl
  | missConn t hloc hown hc =>
    refine ⟨?_, hconn1, ?_, ?_, ?_, ?_⟩
    · intro u hu
      dsimp only at hu ⊢
      rw [Function.update_apply] at hu
      rcases eq_or_ne u t with rfl | hne
      · exact hown
      · rw [if_neg hne] at hu; exact hmutex u hu
    · intro u h hu
      dsimp only at hu ⊢
      rw [Function.update_apply] at hu
      rcases eq_or_ne u t with rfl | hne
      · rw [if_pos rfl] at hu; cases hu
      · rw [if_neg hne] at hu; exact hstore1 u h hu
    · intro u h hu
      dsimp only at hu ⊢
      rw [Function.update_apply] at hu
      rcases eq_or_ne u t with rfl | hne
      · rw [if_pos rfl] at hu; cases hu
      · rw [if_neg hne] at hu; exact hfin1 u h hu
    · intro u hu
      dsimp only at hu ⊢
      rw [Function.update_apply] at hu
      rcases eq_or_ne u t with rfl | hne
      · exact hc
      · rw [if_neg hne] at hu; exact hcreat u hu
    · dsimp only
      rw [hcount]
      congr 1
      exact if_congr (exists_isStoring_update s.locs t .creating rfl
        (by rw [hloc]; rfl)).symm rfl rfl
  | login t hloc hown =>
    have hcnone : s.conn = none := hcreat t hloc
    have hnost : ∀ u, isStoring (s.locs u) = false := by
      intro u
      by_contra hst
      rw [Bool.not_eq_false, isStoring_iff] at hst
      obtain ⟨h, hu⟩ := hst
      have := hmutex u (by rw [hu]; rfl)
      rw [this] at hown
      have huts : u = t := Option.some.inj hown
      rw [huts, hloc] at hu
      cases hu
    have hlc : s.loginCount = 0 := by
      rw [hcount, hcnone]
      simp only [Option.isSome_none, Bool.false_eq_true, if_false]
      rw [if_neg]
      rintro ⟨u, hu⟩
      rw [hnost u] at hu; cases hu
    refine ⟨?_, hconn1, ?_, ?_, ?_, ?_⟩
    · intro u hu
      dsimp only at hu ⊢
      rw [Function.update_apply] at hu
      rcases eq_or_ne u t with rfl | hne
      · exact hown
      · rw [if_neg hne] at hu; exact hmutex u hu
    · intro u h hu
      dsimp only at hu ⊢
      rw [Function.update_apply] at hu
      rcases eq_or_ne u t with rfl | hne
      · rw [if_pos rfl] at hu
        cases hu
        exact ⟨by rw [hlc], hcnone⟩
      · rw [if_neg hne] at hu
        have := hnost u
        rw [hu] at this
        cases this
    · intro u h hu
      dsimp only at hu ⊢
      rw [Function.update_apply] at hu
      rcases eq_or_ne u t with rfl | hne
      · rw [if_pos rfl] at hu; cases hu
      · rw [if_neg hne] at hu; exact hfin1 u h hu
    · intro u hu
      dsimp only at hu ⊢
      rw [Function.update_apply] at hu
      rcases eq_or_ne u t with rfl | hne
      · rw [if_pos rfl] at hu; cases hu
      · rw [if_neg hne] at hu; exact hcreat u hu
    · show s.loginCount + 1 = _
      rw [hlc, hcnone]
      simp only [Option.isSome_none, Bool.false_eq_true, if_false, Nat.zero_add]
      rw [if_pos ⟨t, by rw [Function.update_apply, if_pos rfl]; rfl⟩]
  | store t h hloc hown =>
    obtain ⟨h1, hcnone⟩ := hstore1 t h hloc
    have hlc : s.loginCount = 1 := by
      rw [hcount, hcnone]
      simp only [Option.isSome_none, Bool.false_eq_true, if_false, Nat.zero_add]
      rw [if_pos ⟨t, by rw [hloc]; rfl⟩]
    refine ⟨?_, ?_, ?_, ?_, ?_, ?_⟩
    · intro u hu
      dsimp only at hu ⊢
      rw [Function.update_apply] at hu
      rcases eq_or_ne u t with rfl | hne
      · rw [if_pos rfl] at hu; simp [holdsTenantLock] at hu
      · rw [if_neg hne] at hu
        rw [hmutex u hu] at hown
        exact absurd (Option.some.inj hown) hne
    · intro h' hh
      dsimp only at hh
      cases hh
      exact h1
    · intro u h' hu
      dsimp only at hu ⊢
      rw [Function.update_apply] at hu
      rcases eq_or_ne u t with rfl | hne
      · rw [if_pos rfl] at hu; cases hu
      · rw [if_neg hne] at hu
        rw [hmutex u (by rw [hu]; rfl)] at hown
        exact absurd (Option.some.inj hown) hne
    · intro u h' hu
      dsimp only at hu ⊢
      rw [Function.update_apply] at hu
      rcases eq_or_ne u t with rfl | hne
      · rw [if_pos rfl] at hu
        cases hu
        exact h1
      · rw [if_neg hne] at hu; exact hfin1 u h' hu
    · intro u hu
      dsimp only at hu ⊢
      rw [Function.update_apply] at hu
      rcases eq_or_ne u t with rfl | hne
      · rw [if_pos rfl] at hu; cases hu
      · rw [if_neg hne] at hu
        rw [hmutex u (by rw [hu]; rfl)] at hown
        exact absurd (Option.some.inj hown) hne
    · show s.loginCount = _
      rw [hlc]
      simp only [Option.isSome_some, if_true]
      rw [if_neg, Nat.add_zero]
      rintro ⟨u, hu⟩
      rw [Function.update_apply] at hu
      rcases eq_or_ne u t with rfl | hne
      · rw [if_pos rfl] at hu; cases hu
      · rw [if_neg hne] at hu
        rw [isStoring_iff] at hu
        obtain ⟨h', hu⟩ := hu
        rw [hmutex u (by rw [hu]; rfl)] at hown
        exact absurd (Option.some.inj hown) hne

theorem inv_reachable {n : Nat} {s : PoolState n} (hs : Reachable n s) : Inv n s := by
  induction hs with
  | refl => exact inv_init n
  | tail _ hstep ih => exact inv_step ih hstep

/-- C2: in every reachable state of N threads concurrently calling
`get_connection` for one tenant with no prior cached session, at most one
`login()` call has been made, all threads that have returned hold the same
session handle, and the cached pool entry (of which the dict holds at most
one per tenant) is the handle of that single login — so no two live pooled
sessions ever exist for the tenant. -/
theorem c2_single_login (n : Nat) (s : PoolState n) (hs : Reachable n s) :
    s.loginCount ≤ 1 ∧
    (∀ t₁ t₂ h₁ h₂, s.locs t₁ = .finished h₁ → s.locs t₂ = .finished h₂ → h₁ = h₂) ∧
    (∀ h, s.conn = some h → h = 1 ∧ s.loginCount = 1) := by
  obtain ⟨hmutex, hconn1, hstore1, hfin1, hcreat, hcount⟩ := inv_reachable hs
  have hnostoring_of_conn : ∀ h, s.conn = some h → ¬∃ t, isStoring (s.locs t) = true := by
    intro h hc
    rintro ⟨u, hu⟩
    rw [isStoring_iff] at hu
    obtain ⟨h', hu⟩ := hu
    have := (hstore1 u h' hu).2
    rw [hc] at this
    cases this
  refine ⟨?_, ?_, ?_⟩
  · rw [hcount]
    rcases hc : s.conn with _ | h
    · simp only [Option.isSome_none, Bool.false_eq_true, if_false, Nat.zero_add]
      split
      · exact Nat.le_refl 1
      · exact Nat.zero_le 1
    · simp only [Option.isSome_some, if_true]
      rw [if_neg (hnostoring_of_conn h hc), Nat.add_zero]
  · intro t₁ t₂ h₁ h₂ h1 h2
    rw [hfin1 t₁ h₁ h1, hfin1 t₂ h₂ h2]
  · intro h hc
    refine ⟨hconn1 h hc, ?_⟩
    rw [hcount]
    simp only [hc, Option.isSome_some, if_true]
    rw [if_neg (hnostoring_of_conn h hc), Nat.add_zero]

/-- A complete two-thread run: thread 0 creates the connection (one
`login()`), thread 1 then reuses it; both finish with handle 1 and the pool
caches exactly that session.  Demonstrates that the hypotheses of the C2
theorem are satisfiable on a full interleaving. -/
theorem pool_two_thread_run :
    ∃ s : PoolState 2, Reachable 2 s ∧
      s.locs 0 = .finished 1 ∧ s.locs 1 = .finished 1 ∧
      s.conn = some 1 ∧ s.loginCount = 1 := by
  have r0 : Reachable 2 (initState 2) := Relation.ReflTransGen.refl
  have r1 := Relation.ReflTransGen.tail r0 (Step.acquireGlobal (initState 2) 0 rfl rfl)
  have r2 := Relation.ReflTransGen.tail r1 (Step.ensureTenantLock _ 0 (by decide) rfl)
  have r3 := Relation.ReflTransGen.tail r2 (Step.acquireTenant _ 0 (by decide) rfl rfl)
  have r4 := Relation.ReflTransGen.tail r3 (Step.missConn _ 0 (by decide) rfl rfl)
  have r5 := Relation.ReflTransGen.tail r4 (Step.login _ 0 (by decide) rfl)
  have r6 := Relation.ReflTransGen.tail r5 (Step.store _ 0 1 (by decide) rfl)
  have r7 := Relation.ReflTransGen.tail r6 (Step.acquireGlobal _ 1 (by decide) rfl)
  have r8 := Relation.ReflTransGen.tail r7 (Step.ensureTenantLock _ 1 (by decide) rfl)
  have r9 := Relation.ReflTransGen.tail r8 (Step.acquireTenant _ 1 (by decide) rfl rfl)
  have r10 := Relation.ReflTransGen.tail r9 (Step.reuse _ 1 1 (by decide) rfl rfl)
  exact ⟨_, r10, by decide, by decide, rfl, rfl⟩

/-- C2 witness: the theorem applied at the (trivially reachable) initial
state for two threads. -/
theorem c2_single_login_witness :
    (initState 2).loginCount ≤ 1 ∧
    (∀ t₁ t₂ h₁ h₂, (initState 2).locs t₁ = .finished h₁ →
      (initState 2).locs t₂ = .finished h₂ → h₁ = h₂) ∧
    (∀ h, (initState 2).conn = some h → h = 1 ∧ (initState 2).loginCount = 1) :=
  c2_single_login 2 (initState 2) Relation.ReflTransGen.refl

end Pool

end Orbu
